import Mathlib

/-!
Shallow embedding of `src/bias_engine.py` (rule-based trading-bias detection)
and proofs about its three detectors and aggregator.

Numbers are modelled by `ℚ`; timestamps by `ℤ` minutes since the Unix epoch
(the data has minute granularity).  Python's `round` (half-even) and the
format specs used in the report strings are modelled explicitly.  A detector
that would raise an uncaught Python exception is modelled by `Except.error`.
-/

namespace BiasEngine

attribute [local semireducible] Rat.mul Rat.inv Rat.add Rat.sub

/-- Round-half-even of a rational to an integer, as Python's builtin `round`. -/
def rhe (q : ℚ) : ℤ :=
  let f := ⌊q⌋
  if q - f < 1/2 then f
  else if 1/2 < q - f then f + 1
  else if f % 2 = 0 then f else f + 1

/-- Python `round(x, nd)`: round-half-even at `nd` decimal places. -/
def roundTo (nd : ℕ) (q : ℚ) : ℚ := (rhe (q * 10 ^ nd) : ℚ) / 10 ^ nd

def round1 : ℚ → ℚ := roundTo 1
def round2 : ℚ → ℚ := roundTo 2
def round4 : ℚ → ℚ := roundTo 4

/-- Two-digit zero padding for calendar fields. -/
def pad2 (n : ℤ) : String := if n < 10 then "0" ++ toString n else toString n

/-- Gregorian date `(year, month, day)` from a count of days since 1970-01-01
(the standard civil-from-days algorithm). -/
def civilFromDays (z0 : ℤ) : ℤ × ℤ × ℤ :=
  let z := z0 + 719468
  let era := Int.fdiv z 146097
  let doe := z - era * 146097
  let yoe := Int.fdiv (doe - Int.fdiv doe 1460 + Int.fdiv doe 36524 - Int.fdiv doe 146096) 365
  let y := yoe + era * 400
  let doy := doe - (365 * yoe + Int.fdiv yoe 4 - Int.fdiv yoe 100)
  let mp := Int.fdiv (5 * doy + 2) 153
  let d := doy - Int.fdiv (153 * mp + 2) 5 + 1
  let m := mp + (if mp < 10 then 3 else -9)
  (y + (if m ≤ 2 then 1 else 0), m, d)

/-- `strftime('%Y-%m-%d %H:%M')` of a timestamp given in minutes since epoch. -/
def fmtYmdHM (t : ℤ) : String :=
  let days := Int.fdiv t 1440
  let rem := Int.fmod t 1440
  let c := civilFromDays days
  toString c.1 ++ "-" ++ pad2 c.2.1 ++ "-" ++ pad2 c.2.2 ++ " " ++
    pad2 (Int.fdiv rem 60) ++ ":" ++ pad2 (Int.fmod rem 60)

/-- `str()` of a pandas `Timestamp` with minute granularity:
`"YYYY-MM-DD HH:MM:SS"` with zero seconds. -/
def fmtFull (t : ℤ) : String := fmtYmdHM t ++ ":00"

/-- `str()` of a Python float whose value is an exact multiple of `0.01`
(every ratio interpolated into a report string is rounded to two decimals
first). -/
def ratStr (q : ℚ) : String :=
  let sign := if q < 0 then "-" else ""
  let a : ℚ := |q|
  if a.den = 1 then sign ++ toString a.num ++ ".0"
  else if (a * 10).den = 1 then
    sign ++ toString (Int.fdiv (a * 10).num 10) ++ "." ++ toString (Int.fmod (a * 10).num 10)
  else
    sign ++ toString (Int.fdiv (a * 100).num 100) ++ "." ++ pad2 (Int.fmod (a * 100).num 100)

/-- Groups of three characters, taken from a least-significant-first digit list. -/
def chunk3 : List Char → List (List Char)
  | a :: b :: c :: d :: t => [a, b, c] :: chunk3 (d :: t)
  | [] => []
  | l => [l]

/-- Python format spec `",.0f"`: round to an integer and insert comma
thousands separators. -/
def fmtThousands (q : ℚ) : String :=
  let r := rhe q
  let s := toString r.natAbs
  let grouped := (chunk3 s.data.reverse).map (fun c => String.mk c.reverse)
  (if r < 0 then "-" else "") ++ String.intercalate "," grouped.reverse

/-- Python format spec `".1f"`: one decimal place, round-half-even. -/
def fmtFixed1 (q : ℚ) : String :=
  let v := rhe (q * 10)
  (if v < 0 then "-" else "") ++ toString (Int.fdiv |v| 10) ++ "." ++ toString (Int.fmod |v| 10)

/-- One row of the input trade log (column list from the header comment of
`src/bias_engine.py`). -/
structure Trade where
  timestamp : ℤ
  buy_sell : String
  asset : String
  quantity : ℚ
  entry_price : ℚ
  exit_price : ℚ
  profit_loss : ℚ
  balance : ℚ
deriving DecidableEq, Repr, Inhabited

/-- A value stored in a result's `details` mapping. -/
inductive DVal where
  | i : ℤ → DVal
  | q : ℚ → DVal
  | s : String → DVal
deriving DecidableEq, Repr

/-- One entry of `result["flagged_trades"]` built by `detect_revenge_trading`. -/
structure RevengeRecord where
  timestamp : String
  asset : String
  quantity : ℚ
  avg_quantity : ℚ
  size_vs_avg : String
  prev_loss : ℚ
  mins_after_loss : ℚ
deriving DecidableEq, Repr

/-- The dict every detector returns.  `details` is an insertion-ordered
association list. -/
structure DetectionResult where
  flagged : Bool
  reasons : List String
  details : List (String × DVal)
  flagged_trades : List RevengeRecord
deriving DecidableEq, Repr

/-- A parseable uploaded table: presence flags for each expected column plus
the row data of the columns that are present. -/
structure RawTable where
  hasTimestamp : Bool
  hasBuySell : Bool
  hasAsset : Bool
  hasQuantity : Bool
  hasEntryPrice : Bool
  hasExitPrice : Bool
  hasProfitLoss : Bool
  hasBalance : Bool
  rows : List Trade
deriving DecidableEq, Repr

/-- A table with every expected column present. -/
def fullTable (rows : List Trade) : RawTable :=
  ⟨true, true, true, true, true, true, true, true, rows⟩

/-- The key order used by `sort_values("timestamp")`. -/
def tsLE (a b : Trade) : Prop := a.timestamp ≤ b.timestamp

instance : DecidableRel tsLE := fun a b => inferInstanceAs (Decidable (a.timestamp ≤ b.timestamp))

instance : IsTotal Trade tsLE := ⟨fun a b => Int.le_total a.timestamp b.timestamp⟩

instance : IsTrans Trade tsLE := ⟨fun _ _ _ h1 h2 => le_trans h1 h2⟩

/-- `df.sort_values("timestamp").reset_index(drop=True)`, modelled as a
stable sort by timestamp. -/
def sortByTs (l : List Trade) : List Trade := l.insertionSort tsLE

/-- `Series.mean()` (and `0` for an empty series, a case the detectors never
report from). -/
def mean (xs : List ℚ) : ℚ := xs.sum / xs.length

/-! ### Overtrading detector (`detect_overtrading`) -/

/-- Start of the calendar-anchored 1-hour bucket of a timestamp, as
`resample("1h")` bins it. -/
def hourOf (t : ℤ) : ℤ := 60 * Int.fdiv t 60

/-- The non-empty hour buckets of a trade sequence, in order of first
appearance. -/
def hoursOf (s : List Trade) : List ℤ := (s.map (fun t => hourOf t.timestamp)).dedup

/-- Number of trades falling in the 1-hour bucket starting at `h`. -/
def countHour (s : List Trade) (h : ℤ) : ℕ :=
  (s.filter (fun t => hourOf t.timestamp == h)).length

/-- `hourly.max()`: the largest count over all hour buckets. -/
def peakCount (s : List Trade) : ℕ := ((hoursOf s).map (countHour s)).foldr max 0

/-- `hourly.idxmax()`: the first hour bucket achieving the peak count (empty
resample buckets count 0 and never achieve a positive peak). -/
def peakHour (s : List Trade) : ℤ :=
  ((hoursOf s).filter (fun h => countHour s h == peakCount s)).headD 0

/-- Sub-check A flags iff `peak_val > max_per_hour`. -/
def overtradingFlagA (s : List Trade) (maxPerHour : ℕ) : Bool :=
  decide (maxPerHour < peakCount s)

/-- `total_vol`: sum of `quantity * entry_price` over the trades. -/
def totalVolume (s : List Trade) : ℚ := (s.map (fun t => t.quantity * t.entry_price)).sum

/-- `avg_balance`: the mean of the balance column if present and nonzero,
else the documented fallback `1`. -/
def avgBalanceGuard (s : List Trade) (hasBalance : Bool) : ℚ :=
  if hasBalance = true ∧ mean (s.map (·.balance)) ≠ 0 then mean (s.map (·.balance)) else 1

/-- The exact (pre-rounding) quotient `total_vol / avg_balance`. -/
def exactVolBalanceRatio (s : List Trade) (hasBalance : Bool) : ℚ :=
  totalVolume s / avgBalanceGuard s hasBalance

/-- `ratio = round(total_vol / avg_balance, 2)` — the value the code both
reports and compares against the threshold. -/
def volumeBalanceRatio (s : List Trade) (hasBalance : Bool) : ℚ :=
  round2 (exactVolBalanceRatio s hasBalance)

/-- Sub-check B flags iff `ratio > max_vol_ratio` (on the rounded ratio). -/
def overtradingFlagB (s : List Trade) (hasBalance : Bool) (maxVolRatio : ℚ) : Bool :=
  decide (maxVolRatio < volumeBalanceRatio s hasBalance)

/-- The inner loop of sub-check C over one asset's chronological rows:
count consecutive pairs with opposite side and a gap strictly below the
switch window. -/
def pairSwitches (w : ℤ) : List Trade → ℕ
  | a :: b :: t =>
      (if b.buy_sell ≠ a.buy_sell ∧ b.timestamp - a.timestamp < w then 1 else 0) +
        pairSwitches w (b :: t)
  | _ => 0

/-- `df["asset"].unique()` as a duplicate-free list of assets. -/
def assetsOf (s : List Trade) : List String := (s.map (·.asset)).dedup

/-- `switches`: the switch count summed over every asset's sub-sequence of
the sorted frame. -/
def totalSwitches (s : List Trade) (w : ℤ) : ℕ :=
  ((assetsOf s).map (fun a => pairSwitches w (s.filter (fun t => t.asset == a)))).sum

/-- Sub-check C flags iff `switches >= min_switches`. -/
def overtradingFlagC (s : List Trade) (w : ℤ) (minSwitches : ℕ) : Bool :=
  decide (minSwitches ≤ totalSwitches s w)

/-- The reason string appended by sub-check A. -/
def reasonA (s : List Trade) (m : ℕ) : String :=
  "Executed " ++ toString (peakCount s) ++ " trades in one hour (threshold: " ++
    toString m ++ ") at " ++ fmtYmdHM (peakHour s) ++ "."

/-- The reason string appended by sub-check B. -/
def reasonB (s : List Trade) (hasBalance : Bool) (maxVolRatio : ℚ) : String :=
  "Total trade volume ($" ++ fmtThousands (totalVolume s) ++ ") is " ++
    ratStr (volumeBalanceRatio s hasBalance) ++ "x your average balance (threshold: " ++
    ratStr maxVolRatio ++ "x)."

/-- The reason string appended by sub-check C. -/
def reasonC (s : List Trade) (w : ℤ) : String :=
  "Detected " ++ toString (totalSwitches s w) ++
    " rapid position switches (same asset, opposite side, within " ++ toString w ++ " min)."

/-- Body of `detect_overtrading` after the `timestamp` column access has
succeeded.  On an empty frame `int(hourly.max())` is `int(nan)`, which
raises; that uncaught exception is the `.error` branch. -/
def overtradingCore (rows : List Trade)
    (hasEntry hasQuantity hasBalance hasAsset hasBuySell : Bool)
    (maxPerHour : ℕ) (maxVolRatio : ℚ) (switchWindowMin : ℤ) (minSwitches : ℕ) :
    Except String DetectionResult :=
  let s := sortByTs rows
  if s.isEmpty then .error "ValueError: cannot convert float NaN to integer"
  else
    let runB := hasEntry && hasQuantity
    let runC := hasAsset && hasBuySell
    let fA := overtradingFlagA s maxPerHour
    let fB := runB && overtradingFlagB s hasBalance maxVolRatio
    let fC := runC && overtradingFlagC s switchWindowMin minSwitches
    .ok
      { flagged := fA || fB || fC
        reasons :=
          (if fA then [reasonA s maxPerHour] else []) ++
          (if fB then [reasonB s hasBalance maxVolRatio] else []) ++
          (if fC then [reasonC s switchWindowMin] else [])
        details :=
          [("peak_trades_in_hour", DVal.i (peakCount s)), ("peak_hour", DVal.s (fmtFull (peakHour s)))] ++
          (if runB then [("volume_balance_ratio", DVal.q (volumeBalanceRatio s hasBalance))] else []) ++
          (if runC then [("rapid_position_switches", DVal.i (totalSwitches s switchWindowMin))] else [])
        flagged_trades := [] }

/-- `detect_overtrading`: reading the `timestamp` column of a frame that
lacks it raises `KeyError` before anything else happens. -/
def detectOvertradingRaw (t : RawTable)
    (maxPerHour : ℕ) (maxVolRatio : ℚ) (switchWindowMin : ℤ) (minSwitches : ℕ) :
    Except String DetectionResult :=
  if t.hasTimestamp then
    overtradingCore t.rows t.hasEntryPrice t.hasQuantity t.hasBalance t.hasAsset t.hasBuySell
      maxPerHour maxVolRatio switchWindowMin minSwitches
  else .error "KeyError: 'timestamp'"

/-- `detect_overtrading` on a table with all expected columns. -/
def detectOvertrading (rows : List Trade)
    (maxPerHour : ℕ) (maxVolRatio : ℚ) (switchWindowMin : ℤ) (minSwitches : ℕ) :
    Except String DetectionResult :=
  detectOvertradingRaw (fullTable rows) maxPerHour maxVolRatio switchWindowMin minSwitches

/-! ### Loss aversion detector (`detect_loss_aversion`) -/

/-- `winners`: the `profit_loss` values of the strictly profitable trades. -/
def winners (rows : List Trade) : List ℚ :=
  (rows.filter (fun t => decide (0 < t.profit_loss))).map (·.profit_loss)

/-- `losers`: the absolute `profit_loss` values of the strictly losing trades. -/
def losers (rows : List Trade) : List ℚ :=
  (rows.filter (fun t => decide (t.profit_loss < 0))).map (fun t => |t.profit_loss|)

def avgWin (rows : List Trade) : ℚ := round2 (mean (winners rows))

def avgLoss (rows : List Trade) : ℚ := round2 (mean (losers rows))

/-- `ratio = round(avg_loss / avg_win, 2) if avg_win > 0 else 0`. -/
def lossWinRatio (rows : List Trade) : ℚ :=
  if 0 < avgWin rows then round2 (avgLoss rows / avgWin rows) else 0

/-- Per-trade `price_range = |exit_price - entry_price|` over the winners. -/
def rangeWins (rows : List Trade) : List ℚ :=
  (rows.filter (fun t => decide (0 < t.profit_loss))).map (fun t => |t.exit_price - t.entry_price|)

/-- Per-trade `price_range` over the losers. -/
def rangeLosses (rows : List Trade) : List ℚ :=
  (rows.filter (fun t => decide (t.profit_loss < 0))).map (fun t => |t.exit_price - t.entry_price|)

def avgRangeWin (rows : List Trade) : ℚ := round2 (mean (rangeWins rows))

def avgRangeLoss (rows : List Trade) : ℚ := round2 (mean (rangeLosses rows))

/-- `range_ratio`, with the same zero-guard as the P/L ratio. -/
def priceRangeRatio (rows : List Trade) : ℚ :=
  if 0 < avgRangeWin rows then round2 (avgRangeLoss rows / avgRangeWin rows) else 0

/-- Loss-aversion sub-check A flags iff `ratio > ratio_threshold`. -/
def lossFlagA (rows : List Trade) (ratioThreshold : ℚ) : Bool :=
  decide (ratioThreshold < lossWinRatio rows)

/-- Loss-aversion sub-check B flags iff `range_ratio > price_range_ratio`. -/
def lossFlagB (rows : List Trade) (priceRangeThreshold : ℚ) : Bool :=
  decide (priceRangeThreshold < priceRangeRatio rows)

def lossReasonA (rows : List Trade) (ratioThreshold : ℚ) : String :=
  "Average loss ($" ++ ratStr (avgLoss rows) ++ ") is " ++ ratStr (lossWinRatio rows) ++
    "x your average win ($" ++ ratStr (avgWin rows) ++ ") (threshold: " ++
    ratStr ratioThreshold ++ "x) — you may be holding losers too long."

def lossReasonB (rows : List Trade) : String :=
  "Losing trades travel " ++ ratStr (priceRangeRatio rows) ++
    "x more price distance before exit (" ++ ratStr (avgRangeLoss rows) ++ " vs " ++
    ratStr (avgRangeWin rows) ++ " for winners) — closing winners too early and riding losses."

/-- The degraded result returned when either the winner or the loser group
is empty. -/
def insufficientNote : DetectionResult :=
  { flagged := false
    reasons := []
    details := [("note", DVal.s "Insufficient data — need both wins and losses.")]
    flagged_trades := [] }

/-- Body of `detect_loss_aversion` after the `profit_loss` column access has
succeeded. -/
def lossCore (rows : List Trade) (hasEntry hasExit : Bool)
    (ratioThreshold priceRangeThreshold : ℚ) : DetectionResult :=
  if winners rows = [] ∨ losers rows = [] then insufficientNote
  else
    let runB := hasEntry && hasExit
    let fA := lossFlagA rows ratioThreshold
    let fB := runB && lossFlagB rows priceRangeThreshold
    { flagged := fA || fB
      reasons :=
        (if fA then [lossReasonA rows ratioThreshold] else []) ++
        (if fB then [lossReasonB rows] else [])
      details :=
        [("avg_win", DVal.q (avgWin rows)), ("avg_loss", DVal.q (avgLoss rows)),
         ("loss_win_ratio", DVal.q (lossWinRatio rows)),
         ("total_winners", DVal.i (winners rows).length),
         ("total_losers", DVal.i (losers rows).length)] ++
        (if runB then
          [("avg_price_move_winners", DVal.q (avgRangeWin rows)),
           ("avg_price_move_losers", DVal.q (avgRangeLoss rows)),
           ("price_range_ratio", DVal.q (priceRangeRatio rows))]
         else [])
      flagged_trades := [] }

/-- `detect_loss_aversion`: the unguarded `df["profit_loss"]` access raises
`KeyError` when that column is absent. -/
def detectLossAversionRaw (t : RawTable) (ratioThreshold priceRangeThreshold : ℚ) :
    Except String DetectionResult :=
  if t.hasProfitLoss then
    .ok (lossCore t.rows t.hasEntryPrice t.hasExitPrice ratioThreshold priceRangeThreshold)
  else .error "KeyError: 'profit_loss'"

/-- `detect_loss_aversion` on a table with all expected columns. -/
def detectLossAversion (rows : List Trade) (ratioThreshold priceRangeThreshold : ℚ) :
    Except String DetectionResult :=
  detectLossAversionRaw (fullTable rows) ratioThreshold priceRangeThreshold

/-! ### Revenge trading detector (`detect_revenge_trading`) -/

/-- `avg_qty`: mean quantity over the whole sequence. -/
def meanQty (s : List Trade) : ℚ := mean (s.map (·.quantity))

/-- The three-condition revenge predicate on a (previous, current) row pair:
`prev_pl < 0` and `quantity > avg_qty * qty_multiplier` and
`time_since_prev <= time_window_min`. -/
def revengeCond (avg mult : ℚ) (w : ℤ) (p c : Trade) : Bool :=
  decide (p.profit_loss < 0) && decide (avg * mult < c.quantity) &&
    decide (c.timestamp - p.timestamp ≤ w)

/-- The row mask over the shifted frame: row 0 has `NaN` shifted values and
every comparison with them is false. -/
def revengeMaskAt (s : List Trade) (avg mult : ℚ) (w : ℤ) (i : ℕ) : Bool :=
  if i = 0 then false
  else
    match s[i-1]?, s[i]? with
    | some p, some c => revengeCond avg mult w p c
    | _, _ => false

/-- Positions (in the sorted frame) of the rows selected by `df[mask]`. -/
def revengeFlaggedIdx (s : List Trade) (avg mult : ℚ) (w : ℤ) : List ℕ :=
  (List.range s.length).filter (revengeMaskAt s avg mult w)

/-- The record appended to `flagged_trades` for a flagged row. -/
def mkRevengeRecord (s : List Trade) (avg : ℚ) (i : ℕ) : RevengeRecord :=
  let c := s.getD i default
  let p := s.getD (i - 1) default
  { timestamp := fmtFull c.timestamp
    asset := c.asset
    quantity := round4 c.quantity
    avg_quantity := round4 avg
    size_vs_avg := fmtFixed1 (c.quantity / avg) ++ "x"
    prev_loss := round2 p.profit_loss
    mins_after_loss := round1 ((c.timestamp : ℚ) - (p.timestamp : ℚ)) }

def revengeReason (count : ℕ) (mult : ℚ) (w : ℤ) : String :=
  "Found " ++ toString count ++ " revenge trade(s): position size was ≥" ++ ratStr mult ++
    "x the average AND opened within " ++ toString w ++ " min of a loss."

/-- Body of `detect_revenge_trading` on the sorted frame, all required
columns present. -/
def revengeCore (s : List Trade) (mult : ℚ) (w : ℤ) : DetectionResult :=
  let avg := meanQty s
  let recs := (revengeFlaggedIdx s avg mult w).map (mkRevengeRecord s avg)
  { flagged := decide (0 < recs.length)
    reasons := if 0 < recs.length then [revengeReason recs.length mult w] else []
    details :=
      [("average_quantity", DVal.q (round4 avg)),
       ("revenge_trade_count", DVal.i recs.length),
       ("time_window_minutes", DVal.i w),
       ("qty_multiplier_used", DVal.q mult)]
    flagged_trades := recs }

/-- The degraded result returned when the `quantity` column is absent. -/
def revengeQtyNote : DetectionResult :=
  { flagged := false
    reasons := []
    details := [("note", DVal.s "No 'quantity' column — cannot detect revenge trading.")]
    flagged_trades := [] }

/-- `detect_revenge_trading`: `sort_values("timestamp")` raises `KeyError`
without a `timestamp` column; a missing `quantity` column returns the noted
degraded result; the later unguarded `df["profit_loss"].shift(1)` raises
`KeyError` when that column is absent. -/
def detectRevengeTradingRaw (t : RawTable) (mult : ℚ) (w : ℤ) :
    Except String DetectionResult :=
  if t.hasTimestamp then
    if t.hasQuantity then
      if t.hasProfitLoss then .ok (revengeCore (sortByTs t.rows) mult w)
      else .error "KeyError: 'profit_loss'"
    else .ok revengeQtyNote
  else .error "KeyError: 'timestamp'"

/-- `detect_revenge_trading` on a table with all expected columns. -/
def detectRevengeTrading (rows : List Trade) (mult : ℚ) (w : ℤ) :
    Except String DetectionResult :=
  detectRevengeTradingRaw (fullTable rows) mult w

/-! ### Aggregator (`run_all`) -/

/-- The combined dict returned by `run_all`. -/
structure BiasReport where
  overtrading : DetectionResult
  loss_aversion : DetectionResult
  revenge_trading : DetectionResult
deriving DecidableEq, Repr

/-- `run_all`: the three detectors invoked in order with a shared frame; an
exception in one aborts the whole call.  The switch-window, min-switches and
price-range parameters keep their documented defaults, as in the source. -/
def runAll (rows : List Trade) (maxPerHour : ℕ)
    (maxVolRatio lossWinThreshold revengeMult : ℚ) (revengeTimeMin : ℤ) :
    Except String BiasReport :=
  match detectOvertrading rows maxPerHour maxVolRatio 30 3 with
  | .error e => .error e
  | .ok a =>
    match detectLossAversion rows lossWinThreshold (3/2) with
    | .error e => .error e
    | .ok b =>
      match detectRevengeTrading rows revengeMult revengeTimeMin with
      | .error e => .error e
      | .ok c => .ok ⟨a, b, c⟩

instance {ε α : Type} [DecidableEq ε] [DecidableEq α] : DecidableEq (Except ε α) := fun a b =>
  match a, b with
  | .error e, .error f => decidable_of_iff (e = f) (by simp)
  | .ok x, .ok y => decidable_of_iff (x = y) (by simp)
  | .error _, .ok _ => isFalse (by simp)
  | .ok _, .error _ => isFalse (by simp)

/-- Projection used by concrete counterexamples: the reasons of a detector
call that did not raise. -/
def reasonsOfE : Except String DetectionResult → List String
  | .ok r => r.reasons
  | .error _ => []

/-- Projection used by concrete counterexamples: the flag of a detector call
that did not raise. -/
def flaggedOfE : Except String DetectionResult → Bool
  | .ok r => r.flagged
  | .error _ => false

/-- Whether a detector call returned rather than raised. -/
def isOkE : Except String DetectionResult → Bool
  | .ok _ => true
  | .error _ => false

/-! ### Helper lemmas -/

/-- Round-half-even never overshoots an integer upper bound. -/
lemma rhe_le_int {q : ℚ} {z : ℤ} (h : q ≤ z) : rhe q ≤ z := by
  have hf : ⌊q⌋ ≤ z := by
    have := Int.floor_le_floor h
    simpa using this
  unfold rhe
  dsimp only
  split
  · exact hf
  · rename_i h1
    push_neg at h1
    split
    · rename_i h2
      rcases lt_or_eq_of_le hf with h3 | h3
      · omega
      · exfalso
        have hq : (⌊q⌋ : ℚ) + 1/2 < q := by linarith
        have : (⌊q⌋ : ℚ) < q := by linarith
        rw [h3] at this
        exact absurd h (not_le.mpr (by exact_mod_cast this))
    · rename_i h2
      push_neg at h2
      have he : q - ⌊q⌋ = 1/2 := le_antisymm h2 h1
      rcases lt_or_eq_of_le hf with h3 | h3
      · split <;> omega
      · exfalso
        have : (⌊q⌋ : ℚ) < q := by linarith
        rw [h3] at this
        exact absurd h (not_le.mpr (by exact_mod_cast this))

/-- When the threshold is itself a two-decimal value, rounding to two
decimals cannot push a value past it. -/
lemma round2_le {x T : ℚ} (hT : (100 * T).den = 1) (hx : x ≤ T) : round2 x ≤ T := by
  have hnum : ((100 * T).num : ℚ) = 100 * T := (Rat.den_eq_one_iff _).mp hT
  have h1 : x * 10 ^ 2 ≤ ((100 * T).num : ℚ) := by
    rw [hnum]; nlinarith
  have h2 : rhe (x * 10 ^ 2) ≤ (100 * T).num := rhe_le_int h1
  have h3 : (rhe (x * 10 ^ 2) : ℚ) ≤ 100 * T := by
    calc (rhe (x * 10 ^ 2) : ℚ) ≤ ((100 * T).num : ℚ) := by exact_mod_cast h2
    _ = 100 * T := hnum
  unfold round2 roundTo
  rw [div_le_iff₀ (by norm_num)]
  nlinarith

/-- Sorting does not change emptiness. -/
lemma sortByTs_isEmpty (l : List Trade) : (sortByTs l).isEmpty = l.isEmpty := by
  rcases l with _ | ⟨a, t⟩
  · rfl
  · have : (sortByTs (a :: t)).length = (a :: t).length := List.length_insertionSort _ _
    rcases hs : sortByTs (a :: t) with _ | ⟨b, u⟩
    · rw [hs] at this; simp at this
    · rfl

/-- Inserting an element below every element of a list puts it at the head. -/
lemma orderedInsert_of_forall_le {a : Trade} {m : List Trade}
    (h : ∀ x ∈ m, tsLE a x) : List.orderedInsert tsLE a m = a :: m := by
  cases m with
  | nil => rfl
  | cons b t => simp [List.orderedInsert, if_pos (h b (List.mem_cons_self b t))]

/-- Stability of ordered insertion into a sorted list: filtering commutes
with the insertion. -/
lemma filter_orderedInsert (p : Trade → Bool) (a : Trade) :
    ∀ l : List Trade, List.Sorted tsLE l →
      (List.orderedInsert tsLE a l).filter p =
        if p a then List.orderedInsert tsLE a (l.filter p) else l.filter p := by
  intro l
  induction l with
  | nil =>
    intro _
    by_cases hp : p a <;> simp [hp]
  | cons b t ih =>
    intro hs
    rw [List.sorted_cons] at hs
    by_cases hab : tsLE a b
    · rw [List.orderedInsert, if_pos hab]
      have hall : ∀ x ∈ (b :: t).filter p, tsLE a x := by
        intro x hx
        have hx' : x ∈ b :: t := List.mem_of_mem_filter hx
        rcases List.mem_cons.mp hx' with rfl | hxt
        · exact hab
        · exact IsTrans.trans a b x hab (hs.1 x hxt)
      by_cases hp : p a
      · rw [if_pos hp, orderedInsert_of_forall_le hall, List.filter_cons, if_pos hp]
      · rw [if_neg hp, List.filter_cons, if_neg hp]
    · rw [List.orderedInsert, if_neg hab, List.filter_cons]
      by_cases hpb : p b
      · rw [if_pos hpb, ih hs.2, List.filter_cons, if_pos hpb]
        by_cases hp : p a
        · rw [if_pos hp, if_pos hp, List.orderedInsert, if_neg hab]
        · rw [if_neg hp, if_neg hp]
      · rw [if_neg hpb, ih hs.2, List.filter_cons, if_neg hpb]

/-- Stability of the sort: filtering commutes with `sortByTs`. -/
lemma filter_sortByTs (p : Trade → Bool) :
    ∀ l : List Trade, (sortByTs l).filter p = sortByTs (l.filter p) := by
  intro l
  induction l with
  | nil => rfl
  | cons a t ih =>
    show (List.orderedInsert tsLE a (sortByTs t)).filter p = sortByTs ((a :: t).filter p)
    rw [filter_orderedInsert p a (sortByTs t) (List.sorted_insertionSort tsLE t), List.filter_cons]
    by_cases hp : p a
    · rw [if_pos hp, if_pos hp, ih]
      rfl
    · rw [if_neg hp, if_neg hp, ih]

/-- The strict-or-equal timestamp order: antisymmetric, so sorted
permutations agree. -/
def tsLT' (a b : Trade) : Prop := a.timestamp < b.timestamp ∨ a = b

instance : IsAntisymm Trade tsLT' :=
  ⟨fun a b h1 h2 => by
    rcases h1 with h1 | rfl
    · rcases h2 with h2 | rfl
      · exact absurd h2 (not_lt.mpr (le_of_lt h1))
      · rfl
    · rfl⟩

/-- Two permutations of the same trades with pairwise-distinct timestamps
have the same timestamp sort. -/
lemma sortByTs_eq_of_perm {l1 l2 : List Trade}
    (hn : (l1.map (·.timestamp)).Nodup) (hp : List.Perm l1 l2) :
    sortByTs l1 = sortByTs l2 := by
  have hperm1 : List.Perm (sortByTs l1) l1 := List.perm_insertionSort tsLE l1
  have hperm2 : List.Perm (sortByTs l2) l2 := List.perm_insertionSort tsLE l2
  have hp' : List.Perm (sortByTs l1) (sortByTs l2) :=
    hperm1.trans (hp.trans hperm2.symm)
  have key : ∀ m : List Trade, (m.map (·.timestamp)).Nodup → List.Sorted tsLE m →
      List.Sorted tsLT' m := by
    intro m hmn hms
    have hne : m.Pairwise (fun a b : Trade => a.timestamp ≠ b.timestamp) :=
      List.pairwise_map.mp hmn
    exact (hms.and hne).imp (fun h => Or.inl (lt_of_le_of_ne h.1 h.2))
  have hn1 : ((sortByTs l1).map (·.timestamp)).Nodup :=
    ((hperm1.map (·.timestamp)).nodup_iff).mpr hn
  have hn2 : ((sortByTs l2).map (·.timestamp)).Nodup := by
    have : (l2.map (·.timestamp)).Nodup := ((hp.map (·.timestamp)).nodup_iff).mp hn
    exact ((hperm2.map (·.timestamp)).nodup_iff).mpr this
  exact List.eq_of_perm_of_sorted hp'
    (key _ hn1 (List.sorted_insertionSort tsLE l1))
    (key _ hn2 (List.sorted_insertionSort tsLE l2))

/-! ### Heap model

The no-mutation contract is about Python object identity, so the detectors
are also given in a store-passing form: a `Heap` maps references to
DataFrame objects, `df.copy()` / `sort_values` allocate fresh objects, and
in-place column assignment (`df["col"] = ...`) writes through a reference.
The caller passes a reference; the frame theorems show the object it points
to is untouched. -/

/-- A DataFrame object: its base rows plus the derived columns added by
in-place column assignment (absent-at-row values such as `shift`'s leading
`NaN` are `none`). -/
structure TableObj where
  rows : List Trade
  extra : List (String × List (Option ℚ))
deriving DecidableEq, Repr, Inhabited

/-- A store of DataFrame objects. -/
structure Heap where
  next : ℕ
  mem : ℕ → TableObj

/-- Allocate a fresh object. -/
def halloc (h : Heap) (t : TableObj) : Heap × ℕ :=
  (⟨h.next + 1, fun j => if j = h.next then t else h.mem j⟩, h.next)

/-- Write an object through a reference. -/
def hwrite (h : Heap) (i : ℕ) (t : TableObj) : Heap :=
  ⟨h.next, fun j => if j = i then t else h.mem j⟩

/-- The `trade_value` column of sub-check B. -/
def tradeValueCol (s : List Trade) : List (Option ℚ) :=
  s.map (fun t => some (t.quantity * t.entry_price))

/-- The `price_range` column of loss-aversion sub-check B. -/
def priceRangeCol (s : List Trade) : List (Option ℚ) :=
  s.map (fun t => some |t.exit_price - t.entry_price|)

/-- `df["profit_loss"].shift(1)`. -/
def prevPlCol (s : List Trade) : List (Option ℚ) :=
  (none :: s.map (fun t => some t.profit_loss)).dropLast

/-- `df["timestamp"].shift(1)` (timestamps cast into the numeric column type). -/
def prevTsCol (s : List Trade) : List (Option ℚ) :=
  (none :: s.map (fun t => some (t.timestamp : ℚ))).dropLast

/-- `(df["timestamp"] - df["prev_ts"]).dt.total_seconds() / 60`. -/
def gapCol (s : List Trade) : List (Option ℚ) :=
  (List.range s.length).map
    (fun i => if i = 0 then none
      else some (((s.getD i default).timestamp : ℚ) - ((s.getD (i - 1) default).timestamp : ℚ)))

/-- `detect_overtrading` in store-passing form: copy, convert the timestamp
column in place, allocate the sorted frame, and (unless the empty-frame
exception aborts first) add `trade_value` in place on the sorted copy. -/
def detectOvertradingH (h : Heap) (r : ℕ)
    (maxPerHour : ℕ) (maxVolRatio : ℚ) (switchWindowMin : ℤ) (minSwitches : ℕ) :
    Heap × Except String DetectionResult :=
  let obj := h.mem r
  let a1 := halloc h obj
  let h1 := hwrite a1.1 a1.2 (a1.1.mem a1.2)
  let a2 := halloc h1 ⟨sortByTs obj.rows, []⟩
  let hout :=
    if (sortByTs obj.rows).isEmpty then a2.1
    else hwrite a2.1 a2.2 ⟨sortByTs obj.rows, [("trade_value", tradeValueCol (sortByTs obj.rows))]⟩
  (hout, detectOvertradingRaw (fullTable obj.rows) maxPerHour maxVolRatio switchWindowMin minSwitches)

/-- `detect_loss_aversion` in store-passing form: sub-check A only reads the
caller's frame; `df2 = df.copy()` and the in-place `price_range` assignment
happen only past the insufficient-data early return. -/
def detectLossAversionH (h : Heap) (r : ℕ) (ratioThreshold priceRangeThreshold : ℚ) :
    Heap × Except String DetectionResult :=
  let obj := h.mem r
  let hout :=
    if winners obj.rows = [] ∨ losers obj.rows = [] then h
    else
      let a1 := halloc h obj
      hwrite a1.1 a1.2 ⟨obj.rows, [("price_range", priceRangeCol obj.rows)]⟩
  (hout, detectLossAversionRaw (fullTable obj.rows) ratioThreshold priceRangeThreshold)

/-- `detect_revenge_trading` in store-passing form: `df.copy()` then
`sort_values` allocate, and the three shift-derived columns are assigned in
place on the sorted copy. -/
def detectRevengeTradingH (h : Heap) (r : ℕ) (mult : ℚ) (w : ℤ) :
    Heap × Except String DetectionResult :=
  let obj := h.mem r
  let a1 := halloc h obj
  let a2 := halloc a1.1 ⟨sortByTs obj.rows, []⟩
  let s := sortByTs obj.rows
  let h1 := hwrite a2.1 a2.2 ⟨s, [("prev_pl", prevPlCol s)]⟩
  let h2 := hwrite h1 a2.2 ⟨s, [("prev_pl", prevPlCol s), ("prev_ts", prevTsCol s)]⟩
  let h3 := hwrite h2 a2.2
    ⟨s, [("prev_pl", prevPlCol s), ("prev_ts", prevTsCol s), ("time_since_prev", gapCol s)]⟩
  (h3, detectRevengeTradingRaw (fullTable obj.rows) mult w)

/-- `run_all` in store-passing form: the three detectors run in order on the
caller's reference; an exception aborts the remaining calls. -/
def runAllH (h : Heap) (r : ℕ) (maxPerHour : ℕ)
    (maxVolRatio lossWinThreshold revengeMult : ℚ) (revengeTimeMin : ℤ) :
    Heap × Except String BiasReport :=
  let p1 := detectOvertradingH h r maxPerHour maxVolRatio 30 3
  match p1.2 with
  | .error e => (p1.1, .error e)
  | .ok a =>
    let p2 := detectLossAversionH p1.1 r lossWinThreshold (3/2)
    match p2.2 with
    | .error e => (p2.1, .error e)
    | .ok b =>
      let p3 := detectRevengeTradingH p2.1 r revengeMult revengeTimeMin
      match p3.2 with
      | .error e => (p3.1, .error e)
      | .ok c => (p3.1, .ok ⟨a, b, c⟩)

/-- Frame property of the store-passing overtrading detector: objects below
the allocation frontier are untouched and the frontier does not move back. -/
lemma overtradingH_frame (h : Heap) (r : ℕ) (mph : ℕ) (mvr : ℚ) (w : ℤ) (ms : ℕ)
    (j : ℕ) (hj : j < h.next) :
    ((detectOvertradingH h r mph mvr w ms).1).mem j = h.mem j ∧
      h.next ≤ ((detectOvertradingH h r mph mvr w ms).1).next := by
  unfold detectOvertradingH halloc hwrite
  dsimp only
  split <;>
    simp only [] <;>
    constructor <;>
    first
      | omega
      | (repeat rw [if_neg (by omega)])

/-- Frame property of the store-passing loss-aversion detector. -/
lemma lossAversionH_frame (h : Heap) (r : ℕ) (rT pT : ℚ) (j : ℕ) (hj : j < h.next) :
    ((detectLossAversionH h r rT pT).1).mem j = h.mem j ∧
      h.next ≤ ((detectLossAversionH h r rT pT).1).next := by
  unfold detectLossAversionH halloc hwrite
  dsimp only
  split <;>
    simp only [] <;>
    constructor <;>
    first
      | omega
      | trivial
      | (repeat rw [if_neg (by omega)])

/-- Frame property of the store-passing revenge detector. -/
lemma revengeH_frame (h : Heap) (r : ℕ) (mult : ℚ) (w : ℤ) (j : ℕ) (hj : j < h.next) :
    ((detectRevengeTradingH h r mult w).1).mem j = h.mem j ∧
      h.next ≤ ((detectRevengeTradingH h r mult w).1).next := by
  unfold detectRevengeTradingH halloc hwrite
  dsimp only
  constructor
  · repeat rw [if_neg (by omega)]
  · omega

/-- Frame property of the store-passing aggregator. -/
lemma runAllH_frame (h : Heap) (r : ℕ) (mph : ℕ) (mvr lwt mult : ℚ) (rtm : ℤ)
    (j : ℕ) (hj : j < h.next) :
    ((runAllH h r mph mvr lwt mult rtm).1).mem j = h.mem j ∧
      h.next ≤ ((runAllH h r mph mvr lwt mult rtm).1).next := by
  unfold runAllH
  dsimp only
  obtain ⟨e1m, e1n⟩ := overtradingH_frame h r mph mvr 30 3 j hj
  rcases h1 : (detectOvertradingH h r mph mvr 30 3).2 with e | a
  · simp only [h1]
    exact ⟨e1m, e1n⟩
  · simp only [h1]
    obtain ⟨e2m, e2n⟩ :=
      lossAversionH_frame (detectOvertradingH h r mph mvr 30 3).1 r lwt (3/2) j (lt_of_lt_of_le hj e1n)
    rcases h2 : (detectLossAversionH (detectOvertradingH h r mph mvr 30 3).1 r lwt (3/2)).2 with e | b
    · simp only [h2]
      exact ⟨e2m.trans e1m, e1n.trans e2n⟩
    · simp only [h2]
      obtain ⟨e3m, e3n⟩ :=
        revengeH_frame (detectLossAversionH (detectOvertradingH h r mph mvr 30 3).1 r lwt (3/2)).1
          r mult rtm j (lt_of_lt_of_le hj (e1n.trans e2n))
      rcases h3 : (detectRevengeTradingH
          (detectLossAversionH (detectOvertradingH h r mph mvr 30 3).1 r lwt (3/2)).1
          r mult rtm).2 with e | c
      · simp only [h3]
        exact ⟨(e3m.trans e2m).trans e1m, (e1n.trans e2n).trans e3n⟩
      · simp only [h3]
        exact ⟨(e3m.trans e2m).trans e1m, (e1n.trans e2n).trans e3n⟩

/-- The report computed by the store-passing aggregator is a function of the
caller's object alone. -/
lemma runAllH_result (h : Heap) (r : ℕ) (mph : ℕ) (mvr lwt mult : ℚ) (rtm : ℤ)
    (hr : r < h.next) :
    (runAllH h r mph mvr lwt mult rtm).2 =
      runAll (h.mem r).rows mph mvr lwt mult rtm := by
  unfold runAllH runAll
  dsimp only
  have m1 : ((detectOvertradingH h r mph mvr 30 3).1).mem r = h.mem r :=
    (overtradingH_frame h r mph mvr 30 3 r hr).1
  have n1 : h.next ≤ ((detectOvertradingH h r mph mvr 30 3).1).next :=
    (overtradingH_frame h r mph mvr 30 3 r hr).2
  have e1 : (detectOvertradingH h r mph mvr 30 3).2 =
      detectOvertrading (h.mem r).rows mph mvr 30 3 := rfl
  rw [e1]
  rcases h1 : detectOvertrading (h.mem r).rows mph mvr 30 3 with e | a
  · rfl
  · dsimp only
    have e2 : (detectLossAversionH (detectOvertradingH h r mph mvr 30 3).1 r lwt (3/2)).2 =
        detectLossAversion (h.mem r).rows lwt (3/2) := by
      show detectLossAversionRaw
          (fullTable (((detectOvertradingH h r mph mvr 30 3).1).mem r).rows) lwt (3/2) = _
      rw [m1]
      rfl
    rw [e2]
    rcases h2 : detectLossAversion (h.mem r).rows lwt (3/2) with e | b
    · rfl
    · dsimp only
      have m2 : ((detectLossAversionH (detectOvertradingH h r mph mvr 30 3).1 r
          lwt (3/2)).1).mem r = h.mem r := by
        rw [(lossAversionH_frame _ r lwt (3/2) r (lt_of_lt_of_le hr n1)).1, m1]
      have e3 : (detectRevengeTradingH
          (detectLossAversionH (detectOvertradingH h r mph mvr 30 3).1 r lwt (3/2)).1
          r mult rtm).2 = detectRevengeTrading (h.mem r).rows mult rtm := by
        show detectRevengeTradingRaw (fullTable ((_ : Heap).mem r).rows) mult rtm = _
        rw [m2]
        rfl
      rw [e3]
      rcases h3 : detectRevengeTrading (h.mem r).rows mult rtm with e | c <;> rfl

/-- A sorted frame is fixed by the detector's re-sort. -/
lemma sortByTs_eq_self {l : List Trade} (hs : List.Sorted tsLE l) : sortByTs l = l :=
  List.Sorted.insertionSort_eq hs

/-! ### Claims -/

/-- C1: for a timestamp-sorted sequence, the detector's `flagged_trades` is
the record list of the mask-selected positions, and position `i` is selected
iff `i ≥ 1` and the previous trade lost, the quantity strictly exceeds
`avgQty * revengeQtyMultiplier` (mean over the entire sequence) and the gap
to the previous trade is at most `revengeTimeWindowMinutes`; in particular
the first trade is never selected. -/
theorem revenge_flagged_iff (l : List Trade) (hs : List.Sorted tsLE l)
    (mult : ℚ) (w : ℤ) (r : DetectionResult)
    (hok : detectRevengeTrading l mult w = .ok r) (i : ℕ) :
    r.flagged_trades =
      (revengeFlaggedIdx l (meanQty l) mult w).map (mkRevengeRecord l (meanQty l)) ∧
    (i ∈ revengeFlaggedIdx l (meanQty l) mult w ↔
      1 ≤ i ∧ ∃ p c, l[i-1]? = some p ∧ l[i]? = some c ∧
        p.profit_loss < 0 ∧ meanQty l * mult < c.quantity ∧ c.timestamp - p.timestamp ≤ w) := by
  have hr : r = revengeCore (sortByTs l) mult w := (Except.ok.inj hok).symm
  subst hr
  rw [sortByTs_eq_self hs]
  constructor
  · rfl
  unfold revengeFlaggedIdx
  rw [List.mem_filter, List.mem_range]
  constructor
  · rintro ⟨hi, hm⟩
    unfold revengeMaskAt at hm
    by_cases h0 : i = 0
    · rw [if_pos h0] at hm
      exact absurd hm (by simp)
    · rw [if_neg h0] at hm
      have hi1 : i - 1 < l.length := by omega
      rw [List.getElem?_eq_getElem hi1, List.getElem?_eq_getElem hi] at hm
      have hm' : revengeCond (meanQty l) mult w l[i-1] l[i] = true := hm
      unfold revengeCond at hm'
      simp only [Bool.and_eq_true, decide_eq_true_eq] at hm'
      exact ⟨by omega, l[i-1], l[i], List.getElem?_eq_getElem hi1,
        List.getElem?_eq_getElem hi, hm'.1.1, hm'.1.2, hm'.2⟩
  · rintro ⟨h1, p, c, hp, hc, hc1, hc2, hc3⟩
    have hi : i < l.length := by
      rcases List.getElem?_eq_some.mp hc with ⟨hlt, _⟩
      exact hlt
    refine ⟨hi, ?_⟩
    unfold revengeMaskAt
    rw [if_neg (by omega), hp, hc]
    show revengeCond (meanQty l) mult w p c = true
    unfold revengeCond
    simp only [Bool.and_eq_true, decide_eq_true_eq]
    exact ⟨⟨hc1, hc2⟩, hc3⟩

/-- C1 witness: a concrete two-trade sequence where the second trade follows
a loss, is oversized and arrives within the window. -/
theorem revenge_flagged_iff_witness :
    1 ∈ revengeFlaggedIdx
        [⟨0, "Buy", "X", 4, 10, 10, -50, 1000⟩, ⟨5, "Buy", "X", 13, 10, 10, 10, 1000⟩]
        (meanQty [⟨0, "Buy", "X", 4, 10, 10, -50, 1000⟩, ⟨5, "Buy", "X", 13, 10, 10, 10, 1000⟩])
        (3/2) 15 :=
  ((revenge_flagged_iff
    [⟨0, "Buy", "X", 4, 10, 10, -50, 1000⟩, ⟨5, "Buy", "X", 13, 10, 10, 10, 1000⟩]
    (by decide) (3/2) 15
    ((detectRevengeTrading
        [⟨0, "Buy", "X", 4, 10, 10, -50, 1000⟩, ⟨5, "Buy", "X", 13, 10, 10, 10, 1000⟩]
        (3/2) 15).toOption.getD insufficientNote)
    (by decide) 1).2).mpr
    ⟨by decide, ⟨0, "Buy", "X", 4, 10, 10, -50, 1000⟩, ⟨5, "Buy", "X", 13, 10, 10, 10, 1000⟩,
      rfl, rfl, by decide, by decide, by decide⟩

/-- C3 counterexample: with threshold `2.998`, the exact quotient equals the
threshold, yet sub-check B flags, because the code compares the
two-decimal-rounded ratio (`3.0 > 2.998`); so rounding is not only for
reporting. -/
theorem volume_ratio_rounding_counterexample :
    exactVolBalanceRatio (sortByTs [⟨0, "Buy", "X", 1, 2998, 2998, 0, 1000⟩]) true ≤ 2998/1000 ∧
    overtradingFlagB (sortByTs [⟨0, "Buy", "X", 1, 2998, 2998, 0, 1000⟩]) true (2998/1000) = true ∧
    flaggedOfE (detectOvertrading [⟨0, "Buy", "X", 1, 2998, 2998, 0, 1000⟩] 10 (2998/1000) 30 3) =
      true := by
  refine ⟨by decide, by decide, by decide⟩

/-- C3 amended: sub-check B flags iff the two-decimal-rounded ratio exceeds
the threshold; when the threshold itself is a two-decimal value (such as the
default 3.0), an exact quotient at or below it never flags. -/
theorem volume_ratio_amended (s : List Trade) (hb : Bool) (T : ℚ) :
    overtradingFlagB s hb T = decide (T < round2 (exactVolBalanceRatio s hb)) ∧
    ((100 * T).den = 1 → exactVolBalanceRatio s hb ≤ T → overtradingFlagB s hb T = false) := by
  constructor
  · rfl
  · intro hT hle
    have hr := round2_le hT hle
    unfold overtradingFlagB volumeBalanceRatio
    exact decide_eq_false (not_lt.mpr hr)

/-- C3 amended witness: at the default threshold 3.0 an exact ratio of 3
does not flag. -/
theorem volume_ratio_amended_witness :
    overtradingFlagB [⟨0, "Buy", "X", 1, 3, 3, 0, 1⟩] true 3 = false :=
  (volume_ratio_amended [⟨0, "Buy", "X", 1, 3, 3, 0, 1⟩] true 3).2 (by decide) (by decide)

/-- C4: each ratio sub-check uses a strict `>` and does not flag at exact
threshold equality, while the switch count flags at `>=` equality and the
revenge time gap qualifies at `<=` equality. -/
theorem boundary_comparisons :
    (∀ (s : List Trade) (m : ℕ), peakCount s = m → overtradingFlagA s m = false) ∧
    (∀ (s : List Trade) (hb : Bool) (T : ℚ), volumeBalanceRatio s hb = T →
      overtradingFlagB s hb T = false) ∧
    (∀ (rows : List Trade) (T : ℚ), lossWinRatio rows = T → lossFlagA rows T = false) ∧
    (∀ (rows : List Trade) (T : ℚ), priceRangeRatio rows = T → lossFlagB rows T = false) ∧
    (∀ (avg mult : ℚ) (w : ℤ) (p c : Trade), c.quantity = avg * mult →
      revengeCond avg mult w p c = false) ∧
    (∀ (s : List Trade) (w : ℤ) (ms : ℕ), totalSwitches s w = ms →
      overtradingFlagC s w ms = true) ∧
    (∀ (avg mult : ℚ) (w : ℤ) (p c : Trade), c.timestamp - p.timestamp = w →
      p.profit_loss < 0 → avg * mult < c.quantity → revengeCond avg mult w p c = true) := by
  refine ⟨?_, ?_, ?_, ?_, ?_, ?_, ?_⟩
  · intro s m h
    subst h
    simp [overtradingFlagA]
  · intro s hb T h
    subst h
    simp [overtradingFlagB]
  · intro rows T h
    subst h
    simp [lossFlagA]
  · intro rows T h
    subst h
    simp [lossFlagB]
  · intro avg mult w p c h
    simp [revengeCond, h]
  · intro s w ms h
    subst h
    simp [overtradingFlagC]
  · intro avg mult w p c hg hp hq
    simp [revengeCond, hp, hq, hg.le]

/-- C4 witness: each boundary behavior exercised at a concrete input. -/
theorem boundary_comparisons_witness :
    overtradingFlagA [⟨0, "Buy", "X", 1, 1, 1, 0, 1⟩] 1 = false ∧
    overtradingFlagB [⟨0, "Buy", "X", 1, 3, 3, 0, 1⟩] true 3 = false ∧
    lossFlagA [⟨0, "Buy", "X", 1, 1, 2, 10, 1⟩, ⟨1, "Buy", "X", 1, 1, 2, -15, 1⟩] (3/2) = false ∧
    lossFlagB [⟨0, "Buy", "X", 1, 10, 20, 10, 1⟩, ⟨1, "Buy", "X", 1, 10, 25, -15, 1⟩] (3/2) = false ∧
    revengeCond 2 3 15 ⟨0, "Buy", "X", 1, 1, 1, -1, 1⟩ ⟨5, "Buy", "X", 6, 1, 1, 1, 1⟩ = false ∧
    overtradingFlagC [] 30 0 = true ∧
    revengeCond 2 3 15 ⟨0, "Buy", "X", 1, 1, 1, -1, 1⟩ ⟨15, "Buy", "X", 10, 1, 1, 1, 1⟩ = true :=
  ⟨boundary_comparisons.1 _ 1 (by decide),
   boundary_comparisons.2.1 _ true 3 (by decide),
   boundary_comparisons.2.2.1 _ (3/2) (by decide),
   boundary_comparisons.2.2.2.1 _ (3/2) (by decide),
   boundary_comparisons.2.2.2.2.1 2 3 15 _ _ (by decide),
   boundary_comparisons.2.2.2.2.2.1 [] 30 0 (by decide),
   boundary_comparisons.2.2.2.2.2.2 2 3 15 _ _ (by decide) (by decide) (by decide)⟩

/-- C5 (amended): sub-check A appends its reason iff
`peakCount > maxTradesPerHour`, and the reason string is exactly
`"Executed {peak} trades in one hour (threshold: {max}) at {%Y-%m-%d %H:%M}."`
— with the peak-hour suffix the original claim omits. -/
theorem overtrading_reasonA (rows : List Trade) (m : ℕ) (mvr : ℚ) (w : ℤ) (ms : ℕ)
    (r : DetectionResult) (hok : detectOvertrading rows m mvr w ms = .ok r) :
    overtradingFlagA (sortByTs rows) m = decide (m < peakCount (sortByTs rows)) ∧
    r.reasons =
      (if overtradingFlagA (sortByTs rows) m then
        ["Executed " ++ toString (peakCount (sortByTs rows)) ++
          " trades in one hour (threshold: " ++ toString m ++ ") at " ++
          fmtYmdHM (peakHour (sortByTs rows)) ++ "."]
       else []) ++
      (if overtradingFlagB (sortByTs rows) true mvr then [reasonB (sortByTs rows) true mvr]
       else []) ++
      (if overtradingFlagC (sortByTs rows) w ms then [reasonC (sortByTs rows) w] else []) := by
  refine ⟨rfl, ?_⟩
  replace hok : overtradingCore rows true true true true true m mvr w ms = .ok r := hok
  unfold overtradingCore at hok
  dsimp only at hok
  split at hok
  · exact absurd hok (by simp)
  · have hr := Except.ok.inj hok
    rw [← hr]
    dsimp only
    simp only [Bool.true_and, reasonA]

/-- C5 witness for the amended statement. -/
theorem overtrading_reasonA_witness :
    reasonsOfE (detectOvertrading
        [⟨0, "Buy", "X", 1, 1, 1, 0, 1000⟩, ⟨5, "Buy", "X", 1, 1, 1, 0, 1000⟩] 1 3 30 3) =
      ["Executed 2 trades in one hour (threshold: 1) at 1970-01-01 00:00."] := by
  have h := (overtrading_reasonA
    [⟨0, "Buy", "X", 1, 1, 1, 0, 1000⟩, ⟨5, "Buy", "X", 1, 1, 1, 0, 1000⟩] 1 3 30 3
    { flagged := true
      reasons := ["Executed 2 trades in one hour (threshold: 1) at 1970-01-01 00:00."]
      details := [("peak_trades_in_hour", DVal.i 2), ("peak_hour", DVal.s "1970-01-01 00:00:00"),
        ("volume_balance_ratio", DVal.q 0), ("rapid_position_switches", DVal.i 0)]
      flagged_trades := [] } (by decide)).2
  have h2 : reasonsOfE (detectOvertrading
      [⟨0, "Buy", "X", 1, 1, 1, 0, 1000⟩, ⟨5, "Buy", "X", 1, 1, 1, 0, 1000⟩] 1 3 30 3) =
      ["Executed 2 trades in one hour (threshold: 1) at 1970-01-01 00:00."] := by decide
  exact h2

/-- C5 counterexample: the reason string carries an ` at %Y-%m-%d %H:%M.`
suffix, so it is not exactly the string the claim specifies. -/
theorem overtrading_reasonA_counterexample :
    reasonsOfE (detectOvertrading
        [⟨0, "Buy", "X", 1, 1, 1, 0, 1000⟩, ⟨5, "Buy", "X", 1, 1, 1, 0, 1000⟩] 1 3 30 3) ≠
      ["Executed 2 trades in one hour (threshold: 1)"] ∧
    reasonsOfE (detectOvertrading
        [⟨0, "Buy", "X", 1, 1, 1, 0, 1000⟩, ⟨5, "Buy", "X", 1, 1, 1, 0, 1000⟩] 1 3 30 3) =
      ["Executed 2 trades in one hour (threshold: 1) at 1970-01-01 00:00."] := by
  refine ⟨by decide, by decide⟩

/-- C6: without both a winner and a loser, the loss-aversion detector
returns an unflagged result whose only detail is the insufficient-data note
— no averages or ratios are computed. -/
theorem loss_aversion_insufficient (rows : List Trade) (rT pT : ℚ)
    (h : winners rows = [] ∨ losers rows = []) :
    detectLossAversion rows rT pT = .ok
      { flagged := false, reasons := [],
        details := [("note", DVal.s "Insufficient data — need both wins and losses.")],
        flagged_trades := [] } := by
  show Except.ok (lossCore rows true true rT pT) = _
  rw [lossCore, if_pos h]
  rfl

/-- C6 witness: a sequence with no losing trade. -/
theorem loss_aversion_insufficient_witness :
    detectLossAversion [⟨0, "Buy", "X", 1, 1, 2, 10, 1000⟩] (3/2) (3/2) = .ok
      { flagged := false, reasons := [],
        details := [("note", DVal.s "Insufficient data — need both wins and losses.")],
        flagged_trades := [] } :=
  loss_aversion_insufficient [⟨0, "Buy", "X", 1, 1, 2, 10, 1000⟩] (3/2) (3/2) (Or.inr rfl)

/-- C2 counterexample: an empty trade sequence (all columns present) makes
`detect_overtrading` raise — `int(hourly.max())` is `int(nan)` — instead of
returning a noted unflagged result. -/
theorem empty_frame_overtrading_raises :
    detectOvertrading [] 10 3 30 3 = .error "ValueError: cannot convert float NaN to integer" := by
  decide

/-- C2 (amended): only the specifically guarded absences degrade gracefully
— a missing `quantity` column gives the revenge detector's noted result, and
loss aversion returns a result whenever `profit_loss` is present — while a
missing `timestamp` column raises `KeyError` in the overtrading and revenge
detectors, a missing `profit_loss` column raises `KeyError` in the
loss-aversion and revenge detectors, and an empty sequence raises
`ValueError` in the overtrading detector. -/
theorem column_guard_amended :
    (∀ (t : RawTable) (mult : ℚ) (w : ℤ), t.hasTimestamp = true → t.hasQuantity = false →
      detectRevengeTradingRaw t mult w = .ok
        { flagged := false, reasons := [],
          details := [("note", DVal.s "No 'quantity' column — cannot detect revenge trading.")],
          flagged_trades := [] }) ∧
    (∀ (t : RawTable) (mult : ℚ) (w : ℤ), t.hasTimestamp = false →
      detectRevengeTradingRaw t mult w = .error "KeyError: 'timestamp'") ∧
    (∀ (t : RawTable) (mult : ℚ) (w : ℤ), t.hasTimestamp = true → t.hasQuantity = true →
      t.hasProfitLoss = false →
      detectRevengeTradingRaw t mult w = .error "KeyError: 'profit_loss'") ∧
    (∀ (t : RawTable) (mph : ℕ) (mvr : ℚ) (w : ℤ) (ms : ℕ), t.hasTimestamp = false →
      detectOvertradingRaw t mph mvr w ms = .error "KeyError: 'timestamp'") ∧
    (∀ (t : RawTable) (rT pT : ℚ), t.hasProfitLoss = false →
      detectLossAversionRaw t rT pT = .error "KeyError: 'profit_loss'") ∧
    (∀ (t : RawTable) (rT pT : ℚ), t.hasProfitLoss = true →
      isOkE (detectLossAversionRaw t rT pT) = true) ∧
    (∀ (t : RawTable) (mph : ℕ) (mvr : ℚ) (w : ℤ) (ms : ℕ), t.hasTimestamp = true →
      t.rows ≠ [] → isOkE (detectOvertradingRaw t mph mvr w ms) = true) := by
  refine ⟨?_, ?_, ?_, ?_, ?_, ?_, ?_⟩
  · intro t mult w h1 h2
    rw [detectRevengeTradingRaw, if_pos h1, if_neg (by rw [h2]; exact Bool.false_ne_true)]
    rfl
  · intro t mult w h1
    rw [detectRevengeTradingRaw, if_neg (by rw [h1]; exact Bool.false_ne_true)]
  · intro t mult w h1 h2 h3
    rw [detectRevengeTradingRaw, if_pos h1, if_pos h2,
      if_neg (by rw [h3]; exact Bool.false_ne_true)]
  · intro t mph mvr w ms h1
    rw [detectOvertradingRaw, if_neg (by rw [h1]; exact Bool.false_ne_true)]
  · intro t rT pT h1
    rw [detectLossAversionRaw, if_neg (by rw [h1]; exact Bool.false_ne_true)]
  · intro t rT pT h1
    rw [detectLossAversionRaw, if_pos h1]
    rfl
  · intro t mph mvr w ms h1 h2
    have hne : ¬ ((sortByTs t.rows).isEmpty = true) := by
      rw [sortByTs_isEmpty]
      simpa using h2
    unfold detectOvertradingRaw overtradingCore
    rw [if_pos h1]
    dsimp only
    rw [if_neg hne]
    rfl

/-- C2 amended witness: the guarded and raising cases at concrete tables. -/
theorem column_guard_amended_witness :
    detectRevengeTradingRaw ⟨true, true, true, false, true, true, true, true, []⟩ (3/2) 15 = .ok
      { flagged := false, reasons := [],
        details := [("note", DVal.s "No 'quantity' column — cannot detect revenge trading.")],
        flagged_trades := [] } ∧
    detectOvertradingRaw ⟨false, true, true, true, true, true, true, true, []⟩ 10 3 30 3 =
      .error "KeyError: 'timestamp'" ∧
    detectLossAversionRaw ⟨true, true, true, true, true, true, false, true, []⟩ (3/2) (3/2) =
      .error "KeyError: 'profit_loss'" ∧
    isOkE (detectOvertradingRaw
      ⟨true, true, true, true, true, true, true, true, [⟨0, "Buy", "X", 1, 1, 1, 0, 1⟩]⟩
      10 3 30 3) = true :=
  ⟨column_guard_amended.1 _ (3/2) 15 rfl rfl,
   column_guard_amended.2.2.2.1 _ 10 3 30 3 rfl,
   column_guard_amended.2.2.2.2.1 _ (3/2) (3/2) rfl,
   column_guard_amended.2.2.2.2.2.2 _ 10 3 30 3 rfl (by decide)⟩

/-- The `rapid_position_switches` detail of a successful overtrading call is
the switch total of the sorted frame. -/
lemma overtrading_details_rapid (rows : List Trade) (mph : ℕ) (mvr : ℚ) (w : ℤ) (ms : ℕ)
    (r : DetectionResult) (hok : detectOvertrading rows mph mvr w ms = .ok r) :
    r.details.lookup "rapid_position_switches" =
      some (DVal.i (totalSwitches (sortByTs rows) w)) := by
  replace hok : overtradingCore rows true true true true true mph mvr w ms = .ok r := hok
  unfold overtradingCore at hok
  dsimp only at hok
  split at hok
  · exact absurd hok (by simp)
  · have e := (Except.ok.inj hok).symm
    subst e
    dsimp only
    simp [List.lookup]

/-- C7: a permutation of the trades that preserves each asset's
chronological sub-sequence leaves the rapid-position-switch total (summed
over all assets) unchanged, and hence the detectors report the same
`details.rapid_position_switches` value. -/
theorem switch_count_cross_asset_invariant (l1 l2 : List Trade) (w : ℤ)
    (_hA : ∃ a ∈ l1, ∃ b ∈ l1, a.asset ≠ b.asset)
    (h : ∀ a : String, l1.filter (fun t => t.asset == a) = l2.filter (fun t => t.asset == a)) :
    totalSwitches (sortByTs l1) w = totalSwitches (sortByTs l2) w ∧
    (∀ (mph : ℕ) (mvr : ℚ) (ms : ℕ) (r1 r2 : DetectionResult),
      detectOvertrading l1 mph mvr w ms = .ok r1 → detectOvertrading l2 mph mvr w ms = .ok r2 →
      r1.details.lookup "rapid_position_switches" =
        r2.details.lookup "rapid_position_switches") := by
  have hfil : ∀ a : String,
      (sortByTs l1).filter (fun t => t.asset == a) = (sortByTs l2).filter (fun t => t.asset == a) := by
    intro a
    rw [filter_sortByTs, filter_sortByTs, h a]
  have hmem : ∀ a : String, a ∈ assetsOf (sortByTs l1) ↔ a ∈ assetsOf (sortByTs l2) := by
    intro a
    unfold assetsOf
    rw [List.mem_dedup, List.mem_dedup, List.mem_map, List.mem_map]
    constructor
    · rintro ⟨t, ht, rfl⟩
      have hm : t ∈ (sortByTs l1).filter (fun x => x.asset == t.asset) :=
        List.mem_filter.mpr ⟨ht, by simp⟩
      rw [hfil t.asset] at hm
      exact ⟨t, (List.mem_filter.mp hm).1, rfl⟩
    · rintro ⟨t, ht, rfl⟩
      have hm : t ∈ (sortByTs l2).filter (fun x => x.asset == t.asset) :=
        List.mem_filter.mpr ⟨ht, by simp⟩
      rw [← hfil t.asset] at hm
      exact ⟨t, (List.mem_filter.mp hm).1, rfl⟩
  have hperm : List.Perm (assetsOf (sortByTs l1)) (assetsOf (sortByTs l2)) :=
    (List.perm_ext_iff_of_nodup (List.nodup_dedup _) (List.nodup_dedup _)).mpr hmem
  have hfun : (fun a => pairSwitches w ((sortByTs l1).filter (fun t => t.asset == a))) =
      (fun a => pairSwitches w ((sortByTs l2).filter (fun t => t.asset == a))) :=
    funext (fun a => by rw [hfil a])
  have hmain : totalSwitches (sortByTs l1) w = totalSwitches (sortByTs l2) w := by
    unfold totalSwitches
    rw [hfun]
    exact (hperm.map _).sum_eq
  refine ⟨hmain, ?_⟩
  intro mph mvr ms r1 r2 h1 h2
  rw [overtrading_details_rapid l1 mph mvr w ms r1 h1,
    overtrading_details_rapid l2 mph mvr w ms r2 h2, hmain]

/-- C7 witness: interleaving two assets the other way round keeps the switch
total and the reported detail. -/
theorem switch_count_cross_asset_invariant_witness :
    totalSwitches (sortByTs [⟨0, "Buy", "X", 1, 1, 1, 0, 1⟩, ⟨1, "Sell", "Y", 1, 1, 1, 0, 1⟩]) 30 =
      totalSwitches (sortByTs [⟨1, "Sell", "Y", 1, 1, 1, 0, 1⟩, ⟨0, "Buy", "X", 1, 1, 1, 0, 1⟩]) 30 := by
  have key : ∀ a : String,
      List.filter (fun t => t.asset == a)
        [(⟨0, "Buy", "X", 1, 1, 1, 0, 1⟩ : Trade), ⟨1, "Sell", "Y", 1, 1, 1, 0, 1⟩] =
      List.filter (fun t => t.asset == a)
        [(⟨1, "Sell", "Y", 1, 1, 1, 0, 1⟩ : Trade), ⟨0, "Buy", "X", 1, 1, 1, 0, 1⟩] := by
    intro a
    simp only [List.filter_cons, List.filter_nil]
    by_cases hX : (("X" : String) == a) = true
    · have hY : (("Y" : String) == a) = false := by
        rcases beq_iff_eq.mp hX with rfl
        decide
      simp [hX, hY]
    · rw [Bool.not_eq_true] at hX
      by_cases hY : (("Y" : String) == a) = true
      · simp [hX, hY]
      · rw [Bool.not_eq_true] at hY
        simp [hX, hY]
  exact (switch_count_cross_asset_invariant
    [⟨0, "Buy", "X", 1, 1, 1, 0, 1⟩, ⟨1, "Sell", "Y", 1, 1, 1, 0, 1⟩]
    [⟨1, "Sell", "Y", 1, 1, 1, 0, 1⟩, ⟨0, "Buy", "X", 1, 1, 1, 0, 1⟩] 30
    ⟨⟨0, "Buy", "X", 1, 1, 1, 0, 1⟩, by decide,
      ⟨1, "Sell", "Y", 1, 1, 1, 0, 1⟩, by decide, by decide⟩
    key).1

/-- C8: no detector nor the aggregator mutates the caller's DataFrame: in
the store-passing model, the object the caller's reference points to is the
same after each call. -/
theorem no_input_mutation (h : Heap) (r : ℕ) (hr : r < h.next) (mph : ℕ)
    (mvr rT pT mult lwt rm : ℚ) (w rtm : ℤ) (ms : ℕ) :
    ((detectOvertradingH h r mph mvr w ms).1).mem r = h.mem r ∧
    ((detectLossAversionH h r rT pT).1).mem r = h.mem r ∧
    ((detectRevengeTradingH h r mult rtm).1).mem r = h.mem r ∧
    ((runAllH h r mph mvr lwt rm rtm).1).mem r = h.mem r :=
  ⟨(overtradingH_frame h r mph mvr w ms r hr).1,
   (lossAversionH_frame h r rT pT r hr).1,
   (revengeH_frame h r mult rtm r hr).1,
   (runAllH_frame h r mph mvr lwt rm rtm r hr).1⟩

/-- C8 witness at a concrete one-object store. -/
theorem no_input_mutation_witness :
    ((detectOvertradingH ⟨1, fun _ => ⟨[], []⟩⟩ 0 10 3 30 3).1).mem 0 =
      Heap.mem ⟨1, fun _ => ⟨[], []⟩⟩ 0 ∧
    ((detectLossAversionH ⟨1, fun _ => ⟨[], []⟩⟩ 0 (3/2) (3/2)).1).mem 0 =
      Heap.mem ⟨1, fun _ => ⟨[], []⟩⟩ 0 ∧
    ((detectRevengeTradingH ⟨1, fun _ => ⟨[], []⟩⟩ 0 (3/2) 15).1).mem 0 =
      Heap.mem ⟨1, fun _ => ⟨[], []⟩⟩ 0 ∧
    ((runAllH ⟨1, fun _ => ⟨[], []⟩⟩ 0 10 3 (3/2) (3/2) 15).1).mem 0 =
      Heap.mem ⟨1, fun _ => ⟨[], []⟩⟩ 0 :=
  no_input_mutation ⟨1, fun _ => ⟨[], []⟩⟩ 0 (by decide) 10 3 (3/2) (3/2) (3/2) (3/2) (3/2) 30 15 3

/-- C9: running the aggregator a second time on the same reference yields
the identical report — the engine is deterministic and leaves no state
behind that could change a re-run. -/
theorem runAll_idempotent (h : Heap) (r : ℕ) (hr : r < h.next) (mph : ℕ)
    (mvr lwt mult : ℚ) (rtm : ℤ) :
    (runAllH ((runAllH h r mph mvr lwt mult rtm).1) r mph mvr lwt mult rtm).2 =
      (runAllH h r mph mvr lwt mult rtm).2 := by
  obtain ⟨hm, hn⟩ := runAllH_frame h r mph mvr lwt mult rtm r hr
  rw [runAllH_result _ r mph mvr lwt mult rtm (lt_of_lt_of_le hr hn),
    runAllH_result h r mph mvr lwt mult rtm hr, hm]

/-- C9 witness at a concrete one-object store. -/
theorem runAll_idempotent_witness :
    (runAllH ((runAllH ⟨1, fun _ => ⟨[], []⟩⟩ 0 10 3 (3/2) (3/2) 15).1) 0 10 3 (3/2) (3/2) 15).2 =
      (runAllH ⟨1, fun _ => ⟨[], []⟩⟩ 0 10 3 (3/2) (3/2) 15).2 :=
  runAll_idempotent ⟨1, fun _ => ⟨[], []⟩⟩ 0 (by decide) 10 3 (3/2) (3/2) 15

/-- C10 counterexample: with two trades sharing a timestamp, the input order
(preserved by the stable re-sort) changes the previous-trade alignment, so a
permutation of an already-sorted table gives a different revenge result. -/
theorem revenge_order_counterexample :
    List.Sorted tsLE [⟨0, "Buy", "X", 1, 1, 1, -50, 1000⟩, ⟨0, "Buy", "X", 9, 1, 1, 10, 1000⟩] ∧
    List.Perm ([⟨0, "Buy", "X", 9, 1, 1, 10, 1000⟩, ⟨0, "Buy", "X", 1, 1, 1, -50, 1000⟩] : List Trade)
      [⟨0, "Buy", "X", 1, 1, 1, -50, 1000⟩, ⟨0, "Buy", "X", 9, 1, 1, 10, 1000⟩] ∧
    flaggedOfE (detectRevengeTrading
        [⟨0, "Buy", "X", 9, 1, 1, 10, 1000⟩, ⟨0, "Buy", "X", 1, 1, 1, -50, 1000⟩] (3/2) 15) ≠
      flaggedOfE (detectRevengeTrading
        [⟨0, "Buy", "X", 1, 1, 1, -50, 1000⟩, ⟨0, "Buy", "X", 9, 1, 1, 10, 1000⟩] (3/2) 15) := by
  refine ⟨by decide, by decide, by decide⟩

/-- C10 (amended): when all timestamps are pairwise distinct, the revenge
detector's defensive re-sort makes its result invariant under any
permutation of the input rows. -/
theorem revenge_perm_invariant (l1 l2 : List Trade)
    (hn : (l1.map (·.timestamp)).Nodup) (hp : List.Perm l1 l2) (mult : ℚ) (w : ℤ) :
    detectRevengeTrading l1 mult w = detectRevengeTrading l2 mult w := by
  show Except.ok (revengeCore (sortByTs l1) mult w) = Except.ok (revengeCore (sortByTs l2) mult w)
  rw [sortByTs_eq_of_perm hn hp]

/-- C10 amended witness: a reversed two-trade table with distinct
timestamps. -/
theorem revenge_perm_invariant_witness :
    detectRevengeTrading
        [⟨0, "Buy", "X", 4, 10, 10, -50, 1000⟩, ⟨5, "Buy", "X", 13, 10, 10, 10, 1000⟩] (3/2) 15 =
      detectRevengeTrading
        [⟨5, "Buy", "X", 13, 10, 10, 10, 1000⟩, ⟨0, "Buy", "X", 4, 10, 10, -50, 1000⟩] (3/2) 15 :=
  revenge_perm_invariant _ _ (by decide) (by decide) (3/2) 15

end BiasEngine

